import Mathlib

/-!
# Verification of the data-quality report generator and dashboard

Shallow embedding of `data_quality_report.py` (the analyzer pipeline of
`DataQualityReport`) and of the prediction block of `app.py`, together with
proofs of the specified properties.

Numeric cell values and all percentages are modelled as exact rationals
(`ℚ`); pandas floats are finite decimals, so the arithmetic of the source
is captured exactly.  Missing cells (`NaN`/`None`) are a distinguished
constructor.  External library calls (`pd.to_numeric`, `pd.to_datetime`,
`predict_proba`) are parameters of the embedding.
-/

namespace DQR

/-- A cell of the loaded table: a numeric value, a text value, or missing
(`NaN`).  `pandas` compares missing equal to missing in `duplicated`, which
`DecidableEq` on this type reflects. -/
inductive Value where
  | missing
  | num (q : ℚ)
  | text (s : String)
deriving DecidableEq, Repr

/-- The dtype pandas assigns to a column at load time: a numeric dtype
(`select_dtypes(include=[np.number])`) or `object` (text). -/
inductive DType where
  | numeric
  | obj
deriving DecidableEq, Repr

/-- Pandas `isnull` on one cell: `Value.isMissing v` on one cell. -/
def Value.isMissing : Value → Bool
  | .missing => true
  | _ => false

/-- Extract the numeric payload of a cell (`dropna` on a numeric column). -/
def Value.asNum : Value → Option ℚ
  | .num q => some q
  | _ => none

/-- Extract the text payload of a cell (`dropna` on an object column). -/
def Value.asText : Value → Option String
  | .text s => some s
  | _ => none

/-- One column of the loaded DataFrame: its name, its pandas dtype and its
cells (one per row, in row order). -/
structure ColumnData where
  name : String
  dtype : DType
  cells : List Value
deriving DecidableEq, Repr

/-- The loaded DataFrame `self.df`: an ordered list of columns. -/
structure DataFrame where
  cols : List ColumnData
deriving DecidableEq, Repr

/-- Source `len(self.df)`: the number of rows. -/
def DataFrame.nrows (df : DataFrame) : ℕ :=
  (df.cols.map (fun c => c.cells.length)).foldr max 0

/-- Source `len(self.df.columns)`: the number of columns. -/
def DataFrame.ncols (df : DataFrame) : ℕ := df.cols.length

/-- Well-formedness of a loaded DataFrame: every column has one cell per
row (pandas guarantees a rectangular table). -/
def DataFrame.Wf (df : DataFrame) : Prop :=
  ∀ c ∈ df.cols, c.cells.length = df.nrows

instance (df : DataFrame) : Decidable df.Wf :=
  inferInstanceAs (Decidable (∀ c ∈ df.cols, c.cells.length = df.nrows))

/-- The rows of the table (`self.df` viewed row-wise, as iterated by
`df.duplicated()`): row `i` is the list of the `i`-th cells of the columns. -/
def DataFrame.rows (df : DataFrame) : List (List Value) :=
  (List.range df.nrows).map (fun i => df.cols.map (fun c => c.cells.getD i .missing))

/-- Source `self.df[col]` for a column name: the cells of the first column with
that name. -/
def DataFrame.cellsOf (df : DataFrame) (name : String) : List Value :=
  ((df.cols.find? (fun c => c.name = name)).map (fun c => c.cells)).getD []

-- ===========================================================================
-- MISSING VALUES ANALYSIS  (`analyze_missing_values`, lines 63–119)
-- ===========================================================================

/-- Source `self.df[col].isnull().sum()`: missing cells of one column. -/
def missingCount (c : ColumnData) : ℕ :=
  c.cells.countP Value.isMissing

/-- Source `missing / len(self.df) * 100`: missing percentage of one column. -/
def missingPct (df : DataFrame) (c : ColumnData) : ℚ :=
  (missingCount c : ℚ) / (df.nrows : ℚ) * 100

/-- Source `missing.sum()`: total missing cells of the table. -/
def totalMissing (df : DataFrame) : ℕ :=
  (df.cols.map missingCount).sum

/-- Source `self.df.shape[0] * self.df.shape[1]`: total cells. -/
def totalCells (df : DataFrame) : ℕ := df.nrows * df.ncols

/-- Source `(total_missing / total_cells) * 100`: overall missing percentage. -/
def overallMissingPct (df : DataFrame) : ℚ :=
  (totalMissing df : ℚ) / (totalCells df : ℚ) * 100

-- ===========================================================================
-- DUPLICATE COUNTING  (`df.duplicated().sum()`, `Series.duplicated().sum()`)
-- ===========================================================================

/-- Helper for `dupCount`: walk the list keeping the values seen so far;
an element already seen is a duplicate (pandas `duplicated(keep='first')`). -/
def dupCountAux {α : Type} [DecidableEq α] : List α → List α → ℕ
  | [], _ => 0
  | x :: xs, seen => (if x ∈ seen then 1 else 0) + dupCountAux xs (x :: seen)

/-- Source `duplicated().sum()`: the number of elements equal to some earlier
element.  Works uniformly for full rows (`df.duplicated()`) and for single
columns (`self.df[col].duplicated()`); missing compares equal to missing. -/
def dupCount {α : Type} [DecidableEq α] (l : List α) : ℕ :=
  dupCountAux l []

theorem dupCountAux_add_card {α : Type} [DecidableEq α] :
    ∀ (l : List α) (seen : List α),
      dupCountAux l seen + (l.toFinset \ seen.toFinset).card = l.length := by
  intro l
  induction l with
  | nil => intro seen; simp [dupCountAux]
  | cons x xs ih =>
    intro seen
    by_cases hx : x ∈ seen
    · have hins : insert x seen.toFinset = seen.toFinset := by
        exact Finset.insert_eq_self.mpr (List.mem_toFinset.mpr hx)
      have h1 : (x :: xs).toFinset \ seen.toFinset = xs.toFinset \ seen.toFinset := by
        rw [List.toFinset_cons, Finset.insert_sdiff_of_mem _ (List.mem_toFinset.mpr hx)]
      have h2 := ih (x :: seen)
      rw [List.toFinset_cons, hins] at h2
      simp only [dupCountAux, if_pos hx, h1, List.length_cons]
      omega
    · have h2 := ih (x :: seen)
      rw [List.toFinset_cons] at h2
      have hxs : xs.toFinset \ insert x seen.toFinset = (xs.toFinset \ seen.toFinset).erase x := by
        rw [Finset.sdiff_insert]
      rw [hxs] at h2
      simp only [dupCountAux, if_neg hx]
      have hset : (x :: xs).toFinset \ seen.toFinset
          = insert x (xs.toFinset \ seen.toFinset) := by
        rw [List.toFinset_cons,
          Finset.insert_sdiff_of_not_mem _ (by simpa using hx)]
      rw [hset]
      by_cases hmem : x ∈ xs.toFinset \ seen.toFinset
      · have hcard : (insert x (xs.toFinset \ seen.toFinset)).card
            = (xs.toFinset \ seen.toFinset).card := by
          rw [Finset.insert_eq_self.mpr hmem]
        have herase : ((xs.toFinset \ seen.toFinset).erase x).card + 1
            = (xs.toFinset \ seen.toFinset).card :=
          Finset.card_erase_add_one hmem
        simp only [List.length_cons]
        omega
      · have hcard : (insert x (xs.toFinset \ seen.toFinset)).card
            = (xs.toFinset \ seen.toFinset).card + 1 :=
          Finset.card_insert_of_not_mem hmem
        have herase : (xs.toFinset \ seen.toFinset).erase x
            = xs.toFinset \ seen.toFinset :=
          Finset.erase_eq_of_not_mem hmem
        rw [herase] at h2
        simp only [List.length_cons]
        omega

/-- The duplicate count is the list length minus the number of distinct
values. -/
theorem dupCount_eq_length_sub_card {α : Type} [DecidableEq α] (l : List α) :
    dupCount l = l.length - l.toFinset.card := by
  have h : dupCount l + l.toFinset.card = l.length := by
    have h0 := dupCountAux_add_card l []
    simpa [dupCount] using h0
  omega

/-- The number of distinct values never exceeds the length. -/
theorem toFinset_card_le_length {α : Type} [DecidableEq α] (l : List α) :
    l.toFinset.card ≤ l.length := by
  induction l with
  | nil => simp
  | cons x xs ih =>
    rw [List.toFinset_cons]
    calc (insert x xs.toFinset).card ≤ xs.toFinset.card + 1 :=
          Finset.card_insert_le _ _
      _ ≤ xs.length + 1 := by omega
      _ = (x :: xs).length := by simp

/-- Group form: the duplicate count is the sum over distinct values of
(multiplicity − 1); `countP (· = v)` is the multiplicity of `v`. -/
theorem dupCount_eq_sum_groups {α : Type} [DecidableEq α] (l : List α) :
    dupCount l = ∑ v ∈ l.toFinset, (l.countP (fun x => decide (x = v)) - 1) := by
  have hcp : ∀ v : α, l.countP (fun x => decide (x = v)) = l.count v := by
    intro v
    rfl
  have hcount : ∀ v ∈ l.toFinset, 1 ≤ l.count v := by
    intro v hv
    exact List.count_pos_iff.mpr (List.mem_toFinset.mp hv)
  have hsum : ∑ v ∈ l.toFinset, l.count v = l.length := by
    simp
  have hshift : ∑ v ∈ l.toFinset, (l.count v - 1) + l.toFinset.card = l.length := by
    rw [← hsum, Finset.card_eq_sum_ones, ← Finset.sum_add_distrib]
    refine Finset.sum_congr rfl ?_
    intro v hv
    have := hcount v hv
    omega
  simp only [hcp]
  rw [dupCount_eq_length_sub_card]
  omega

-- ===========================================================================
-- ROUNDING  (Python `round`, `round(x, 2)`)
-- ===========================================================================

/-- The executable `Rat.floor` agrees with `⌊·⌋`. -/
theorem ratFloor_eq_intFloor (q : ℚ) : Rat.floor q = ⌊q⌋ :=
  (Rat.floor_def' q).trans Rat.floor_def.symm

/-- Python's built-in `round` to an integer: round half to even. -/
def pythonRound (q : ℚ) : ℤ :=
  if q - (Rat.floor q : ℚ) < 1/2 then Rat.floor q
  else if 1/2 < q - (Rat.floor q : ℚ) then Rat.floor q + 1
  else if Rat.floor q % 2 = 0 then Rat.floor q else Rat.floor q + 1

/-- Python `round(x, 2)`: round half to even at two decimal places. -/
def round2 (x : ℚ) : ℚ := (pythonRound (x * 100) : ℚ) / 100

theorem floor_le_pythonRound (q : ℚ) : ⌊q⌋ ≤ pythonRound q := by
  unfold pythonRound
  simp only [ratFloor_eq_intFloor]
  split <;> [skip; split <;> [skip; split]] <;> omega

theorem pythonRound_le_floor_add_one (q : ℚ) : pythonRound q ≤ ⌊q⌋ + 1 := by
  unfold pythonRound
  simp only [ratFloor_eq_intFloor]
  split <;> [skip; split <;> [skip; split]] <;> omega

theorem pythonRound_intCast (n : ℤ) : pythonRound (n : ℚ) = n := by
  unfold pythonRound
  simp only [ratFloor_eq_intFloor]
  rw [Int.floor_intCast]
  norm_num

-- ===========================================================================
-- QUANTILES  (`data.quantile(0.25)`, `data.quantile(0.75)`)
-- ===========================================================================

/-- Linear interpolation at fractional position `h` into the sorted list
`s`: the value `s[⌊h⌋] + (h − ⌊h⌋)·(s[⌊h⌋+1] − s[⌊h⌋])` (the upper index
clamped to the last element), which is numpy's default `linear`
interpolation evaluated at position `h`. -/
def interpAt (s : List ℚ) (h : ℚ) : ℚ :=
  s.getD (Rat.floor h).toNat 0 +
    (h - (((Rat.floor h).toNat : ℕ) : ℚ)) *
      (s.getD (min ((Rat.floor h).toNat + 1) (s.length - 1)) 0
        - s.getD (Rat.floor h).toNat 0)

/-- Source `data.quantile(q)` (pandas/numpy `linear` method): sort the data and
interpolate at position `(n − 1)·q`. -/
def quantile (data : List ℚ) (q : ℚ) : ℚ :=
  interpAt (List.insertionSort (· ≤ ·) data) (((data.length : ℚ) - 1) * q)

theorem sorted_getD_mono {s : List ℚ} (hs : s.Sorted (· ≤ ·)) {i j : ℕ}
    (hij : i ≤ j) (hj : j < s.length) : s.getD i 0 ≤ s.getD j 0 := by
  have hi : i < s.length := lt_of_le_of_lt hij hj
  have h := List.Sorted.rel_get_of_le hs
    (show (⟨i, hi⟩ : Fin s.length) ≤ ⟨j, hj⟩ from hij)
  rw [List.getD_eq_getElem _ _ hi, List.getD_eq_getElem _ _ hj]
  simpa [List.get_eq_getElem] using h

theorem interpAt_ge {s : List ℚ} (hs : s.Sorted (· ≤ ·)) {h : ℚ}
    (h0 : 0 ≤ h) (h1 : h ≤ (s.length : ℚ) - 1) :
    s.getD (⌊h⌋).toNat 0 ≤ interpAt s h := by
  have hfl : ((⌊h⌋).toNat : ℚ) = (⌊h⌋ : ℚ) := by
    exact_mod_cast Int.toNat_of_nonneg (Int.floor_nonneg.mpr h0)
  have hn1 : ((⌊h⌋).toNat : ℚ) ≤ (s.length : ℚ) - 1 := by
    rw [hfl]; exact le_trans (Int.floor_le h) h1
  have hilen : (⌊h⌋).toNat + 1 ≤ s.length := by
    by_contra hc
    push_neg at hc
    have : (s.length : ℚ) ≤ ((⌊h⌋).toNat : ℚ) := by exact_mod_cast Nat.lt_succ_iff.mp hc
    linarith
  have hfrac0 : 0 ≤ h - ((⌊h⌋).toNat : ℚ) := by
    rw [hfl]; linarith [Int.floor_le h]
  have hlohi : s.getD (⌊h⌋).toNat 0 ≤ s.getD (min ((⌊h⌋).toNat + 1) (s.length - 1)) 0 := by
    apply sorted_getD_mono hs
    · omega
    · omega
  unfold interpAt
  simp only [ratFloor_eq_intFloor]
  nlinarith [mul_nonneg hfrac0 (sub_nonneg.mpr hlohi)]

theorem interpAt_le {s : List ℚ} (hs : s.Sorted (· ≤ ·)) {h : ℚ}
    (h0 : 0 ≤ h) (h1 : h ≤ (s.length : ℚ) - 1) :
    interpAt s h ≤ s.getD (min ((⌊h⌋).toNat + 1) (s.length - 1)) 0 := by
  have hfl : ((⌊h⌋).toNat : ℚ) = (⌊h⌋ : ℚ) := by
    exact_mod_cast Int.toNat_of_nonneg (Int.floor_nonneg.mpr h0)
  have hn1 : ((⌊h⌋).toNat : ℚ) ≤ (s.length : ℚ) - 1 := by
    rw [hfl]; exact le_trans (Int.floor_le h) h1
  have hilen : (⌊h⌋).toNat + 1 ≤ s.length := by
    by_contra hc
    push_neg at hc
    have : (s.length : ℚ) ≤ ((⌊h⌋).toNat : ℚ) := by exact_mod_cast Nat.lt_succ_iff.mp hc
    linarith
  have hfrac1 : h - ((⌊h⌋).toNat : ℚ) ≤ 1 := by
    rw [hfl]; linarith [Int.lt_floor_add_one h]
  have hlohi : s.getD (⌊h⌋).toNat 0 ≤ s.getD (min ((⌊h⌋).toNat + 1) (s.length - 1)) 0 := by
    apply sorted_getD_mono hs
    · omega
    · omega
  unfold interpAt
  simp only [ratFloor_eq_intFloor]
  nlinarith [mul_le_mul_of_nonneg_right hfrac1 (sub_nonneg.mpr hlohi)]

theorem interpAt_mono {s : List ℚ} (hs : s.Sorted (· ≤ ·))
    {h1 h2 : ℚ} (h10 : 0 ≤ h1) (h12 : h1 ≤ h2) (h2n : h2 ≤ (s.length : ℚ) - 1) :
    interpAt s h1 ≤ interpAt s h2 := by
  have h20 : 0 ≤ h2 := le_trans h10 h12
  have h1n : h1 ≤ (s.length : ℚ) - 1 := le_trans h12 h2n
  have hfl1 : ((⌊h1⌋).toNat : ℚ) = (⌊h1⌋ : ℚ) := by
    exact_mod_cast Int.toNat_of_nonneg (Int.floor_nonneg.mpr h10)
  have hfl2 : ((⌊h2⌋).toNat : ℚ) = (⌊h2⌋ : ℚ) := by
    exact_mod_cast Int.toNat_of_nonneg (Int.floor_nonneg.mpr h20)
  have hi12 : (⌊h1⌋).toNat ≤ (⌊h2⌋).toNat :=
    Int.toNat_le_toNat (Int.floor_le_floor h12)
  rcases eq_or_lt_of_le hi12 with heq | hlt
  · -- same cell: the interpolation is affine with nonnegative slope
    have hn2 : ((⌊h2⌋).toNat : ℚ) ≤ (s.length : ℚ) - 1 := by
      rw [hfl2]; exact le_trans (Int.floor_le h2) h2n
    have hilen : (⌊h2⌋).toNat + 1 ≤ s.length := by
      by_contra hc
      push_neg at hc
      have : (s.length : ℚ) ≤ ((⌊h2⌋).toNat : ℚ) := by exact_mod_cast Nat.lt_succ_iff.mp hc
      linarith
    have hlohi : s.getD (⌊h2⌋).toNat 0 ≤ s.getD (min ((⌊h2⌋).toNat + 1) (s.length - 1)) 0 := by
      apply sorted_getD_mono hs
      · omega
      · omega
    unfold interpAt
    simp only [ratFloor_eq_intFloor]
    rw [heq]
    nlinarith [mul_le_mul_of_nonneg_right (sub_le_sub_right h12 ((((⌊h2⌋).toNat : ℕ)) : ℚ))
      (sub_nonneg.mpr hlohi)]
  · -- the first position lies in an earlier cell
    have hn2 : ((⌊h2⌋).toNat : ℚ) ≤ (s.length : ℚ) - 1 := by
      rw [hfl2]; exact le_trans (Int.floor_le h2) h2n
    have hilen2 : (⌊h2⌋).toNat + 1 ≤ s.length := by
      by_contra hc
      push_neg at hc
      have : (s.length : ℚ) ≤ ((⌊h2⌋).toNat : ℚ) := by exact_mod_cast Nat.lt_succ_iff.mp hc
      linarith
    have step1 : interpAt s h1 ≤ s.getD (min ((⌊h1⌋).toNat + 1) (s.length - 1)) 0 :=
      interpAt_le hs h10 h1n
    have step2 : s.getD (min ((⌊h1⌋).toNat + 1) (s.length - 1)) 0
        ≤ s.getD (⌊h2⌋).toNat 0 := by
      apply sorted_getD_mono hs
      · omega
      · omega
    have step3 : s.getD (⌊h2⌋).toNat 0 ≤ interpAt s h2 :=
      interpAt_ge hs h20 h2n
    linarith

/-- Monotonicity: `data.quantile` is monotone in the quantile level. -/
theorem quantile_mono (data : List ℚ) (hne : data ≠ []) {q1 q2 : ℚ}
    (hq0 : 0 ≤ q1) (hq : q1 ≤ q2) (hq1 : q2 ≤ 1) :
    quantile data q1 ≤ quantile data q2 := by
  have hlen : (List.insertionSort (· ≤ ·) data).length = data.length :=
    List.length_insertionSort _ _
  have hs : (List.insertionSort (· ≤ ·) data).Sorted (· ≤ ·) :=
    List.sorted_insertionSort _ _
  have hpos : 1 ≤ data.length := by
    cases data with
    | nil => exact absurd rfl hne
    | cons a l => simp
  have hn1 : (0 : ℚ) ≤ (data.length : ℚ) - 1 := by
    have : (1 : ℚ) ≤ (data.length : ℚ) := by exact_mod_cast hpos
    linarith
  unfold quantile
  apply interpAt_mono hs
  · exact mul_nonneg hn1 hq0
  · exact mul_le_mul_of_nonneg_left hq hn1
  · rw [hlen]
    calc ((data.length : ℚ) - 1) * q2 ≤ ((data.length : ℚ) - 1) * 1 :=
          mul_le_mul_of_nonneg_left hq1 hn1
      _ = (data.length : ℚ) - 1 := mul_one _

-- ===========================================================================
-- OUTLIER ANALYSIS  (`analyze_outliers`, lines 170–250)
-- ===========================================================================

/-- Source `Q1 = data.quantile(0.25)`. -/
def q1Of (data : List ℚ) : ℚ := quantile data (1/4)

/-- Source `Q3 = data.quantile(0.75)`. -/
def q3Of (data : List ℚ) : ℚ := quantile data (3/4)

/-- Source `IQR = Q3 - Q1`. -/
def iqrOf (data : List ℚ) : ℚ := q3Of data - q1Of data

/-- Source `lower_bound = Q1 - 1.5 * IQR`. -/
def lowerBoundOf (data : List ℚ) : ℚ := q1Of data - 3/2 * iqrOf data

/-- Source `upper_bound = Q3 + 1.5 * IQR`. -/
def upperBoundOf (data : List ℚ) : ℚ := q3Of data + 3/2 * iqrOf data

/-- Source `outliers = data[(data < lower_bound) | (data > upper_bound)]`. -/
def outliersOf (data : List ℚ) : List ℚ :=
  data.filter (fun x => decide (x < lowerBoundOf data) || decide (upperBoundOf data < x))

/-- Source `data.min()` of a nonempty list (0 on the empty list, never used there:
the analyzer skips empty columns). -/
def listMin : List ℚ → ℚ
  | [] => 0
  | x :: xs => xs.foldl min x

/-- Source `data.max()` of a nonempty list. -/
def listMax : List ℚ → ℚ
  | [] => 0
  | x :: xs => xs.foldl max x

/-- Source `data.mean()`. -/
def listMean (l : List ℚ) : ℚ := l.sum / (l.length : ℚ)

/-- One entry of `impossible_values`, modelled structurally: the analyzer
renders `negativeValues m` as `f"Negative values found (min: {m:.2f})"` and
`ageOver120 m` as `f"Age > 120 found (max: {m:.0f})"`. -/
inductive ImpossibleFlag where
  | negativeValues (minv : ℚ)
  | ageOver120 (maxv : ℚ)
deriving DecidableEq, Repr

/-- Python `str.lower()` (`col.lower()`), mapped over the characters. -/
def lowerStr (s : String) : String := String.mk (s.toList.map Char.toLower)

/-- The name list of the negative-value heuristic (line 207). -/
def negativeNameList : List String := ["age", "price", "quantity", "count", "amount"]

/-- Lines 206–210: the domain-implausibility flags of one column. -/
def impossibleFlags (colName : String) (data : List ℚ) : List ImpossibleFlag :=
  (if listMin data < 0 ∧ lowerStr colName ∈ negativeNameList
   then [ImpossibleFlag.negativeValues (listMin data)] else [])
  ++ (if lowerStr colName = "age" ∧ 120 < listMax data
      then [ImpossibleFlag.ageOver120 (listMax data)] else [])

/-- The record appended to `outlier_details` for one numeric column
(lines 212–227).  Sample standard deviation (`data.std()`, an irrational
square root used only for display) is not modelled. -/
structure OutlierDetail where
  column : String
  count : ℕ
  mean : ℚ
  min : ℚ
  max : ℚ
  q1 : ℚ
  q3 : ℚ
  iqr : ℚ
  lower_bound : ℚ
  upper_bound : ℚ
  outlier_count : ℕ
  outlier_pct : ℚ
  impossible_values : List ImpossibleFlag
deriving DecidableEq, Repr

/-- The loop body of `analyze_outliers` for one numeric column: drop
missing values; if none remain, skip the column; otherwise compute the
IQR statistics (stored rounded to two decimals, as in the source). -/
def analyzeColumnOutliers (name : String) (cells : List Value) : Option OutlierDetail :=
  let data := cells.filterMap Value.asNum
  if data = [] then none
  else some
    { column := name
      count := data.length
      mean := round2 (listMean data)
      min := round2 (listMin data)
      max := round2 (listMax data)
      q1 := round2 (q1Of data)
      q3 := round2 (q3Of data)
      iqr := round2 (iqrOf data)
      lower_bound := round2 (lowerBoundOf data)
      upper_bound := round2 (upperBoundOf data)
      outlier_count := (outliersOf data).length
      outlier_pct := round2 (((outliersOf data).length : ℚ) / (data.length : ℚ) * 100)
      impossible_values := impossibleFlags name data }

/-- Source `analyze_outliers`: the `details` list, one entry per numeric column
with at least one non-missing value (`select_dtypes(include=[np.number])`,
empty columns skipped by the `len(data) == 0` guard). -/
def analyze_outliers (df : DataFrame) : List OutlierDetail :=
  df.cols.filterMap (fun c =>
    if c.dtype = DType.numeric then analyzeColumnOutliers c.name c.cells else none)

-- ===========================================================================
-- DUPLICATE ANALYSIS  (`analyze_duplicates`, lines 317–368)
-- ===========================================================================

/-- Source `exact_duplicates = self.df.duplicated().sum()`. -/
def exact_duplicates (df : DataFrame) : ℕ := dupCount df.rows

/-- Source `exact_dup_pct = (exact_duplicates / len(self.df)) * 100`. -/
def exact_duplicate_pct (df : DataFrame) : ℚ :=
  (exact_duplicates df : ℚ) / (df.nrows : ℚ) * 100

/-- The name fragments of the candidate-key heuristic (line 338). -/
def keySubstrings : List String := ["id", "key", "code", "number", "email"]

/-- Python `needle in hay` on strings (Python's substring test). -/
def containsSub (hay needle : String) : Bool :=
  (List.range (hay.toList.length + 1)).any
    (fun i => needle.toList.isPrefixOf (hay.toList.drop i))

/-- Lines 335–339: columns whose lower-cased name contains one of the key
fragments. -/
def potential_key_cols (df : DataFrame) : List String :=
  (df.cols.map (fun c => c.name)).filter
    (fun n => keySubstrings.any (fun k => containsSub (lowerStr n) k))

/-- Lines 341–345: for at most the first 5 candidate key columns, the
column-level duplicate count, recorded only when it is positive. -/
def key_column_duplicates (df : DataFrame) : List (String × ℕ) :=
  ((potential_key_cols df).take 5).filterMap (fun n =>
    if 0 < dupCount (df.cellsOf n) then some (n, dupCount (df.cellsOf n)) else none)

-- ===========================================================================
-- DATA TYPE ANALYSIS  (`analyze_data_types`, lines 374–431)
-- ===========================================================================

/-- One entry of `type_warnings`, modelled structurally:
`appearsNumeric col` is the string `f"'{col}' is stored as text but appears
numeric"` and `appearsDatetime col` the string `f"'{col}' is stored as text
but appears to be datetime"`. -/
inductive TypeWarning where
  | appearsNumeric (col : String)
  | appearsDatetime (col : String)
deriving DecidableEq, Repr

/-- Source `self.df[col].dropna().head(100)` on an object column: the first 100
non-missing (text) values. -/
def textPrefix100 (cells : List Value) : List String :=
  (cells.filterMap Value.asText).take 100

/-- Lines 399–413: for every object column, append the numeric warning when
`pd.to_numeric` does not raise on the prefix, then append the datetime
warning when `pd.to_datetime` does not raise on the prefix.  The two
library probes are parameters (`toNumericOk`, `toDatetimeOk`) returning
whether the corresponding `try` block succeeds. -/
def typeWarnings (toNumericOk toDatetimeOk : List String → Bool)
    (df : DataFrame) : List TypeWarning :=
  (df.cols.map (fun c =>
    if c.dtype = DType.obj then
      (if toNumericOk (textPrefix100 c.cells)
       then [TypeWarning.appearsNumeric c.name] else [])
      ++ (if toDatetimeOk (textPrefix100 c.cells)
          then [TypeWarning.appearsDatetime c.name] else [])
    else [])).flatten

/-- Modelled from the spec: the numeric probe (`pd.to_numeric` on the
prefix, an external-library call) succeeds when every string of the prefix
parses as a number; modelled as accepting nonempty strings of decimal
digits, a subset of what `pd.to_numeric` accepts. -/
def numericProbe (xs : List String) : Bool :=
  xs.all (fun s => decide (s.toList ≠ []) && s.toList.all Char.isDigit)

/-- The numeric value of a digit character. -/
def digitVal (c : Char) : ℕ := c.toNat - 48

/-- Modelled from the spec: the datetime probe (`pd.to_datetime` on the
prefix, an external-library call) succeeds when every string of the prefix
parses as a date/time; modelled as accepting compact dates `YYYYMMDD` with
a valid month and day, a subset of what `pd.to_datetime` accepts. -/
def datetimeProbe (xs : List String) : Bool :=
  xs.all (fun s =>
    let cs := s.toList
    decide (cs.length = 8) && cs.all Char.isDigit &&
      (decide (1 ≤ 10 * digitVal (cs.getD 4 '0') + digitVal (cs.getD 5 '0')) &&
       decide (10 * digitVal (cs.getD 4 '0') + digitVal (cs.getD 5 '0') ≤ 12) &&
       decide (1 ≤ 10 * digitVal (cs.getD 6 '0') + digitVal (cs.getD 7 '0')) &&
       decide (10 * digitVal (cs.getD 6 '0') + digitVal (cs.getD 7 '0') ≤ 31)))

-- ===========================================================================
-- QUALITY SCORE  (`_generate_quality_score_html`, lines 832–850)
-- ===========================================================================

/-- Source `sum(1 for d in details if d['outlier_pct'] > 10)`. -/
def countHighOutlierCols (details : List OutlierDetail) : ℕ :=
  (details.filter (fun d => decide (10 < d.outlier_pct))).length

/-- Lines 834–850: start at 100; deduct `min(30, missing_pct * 0.5)`;
deduct `min(20, dup_pct * 2)`; when the outlier detail list is nonempty
deduct `min(20, high_outlier_cols * 5)`; then `max(0, round(score))`. -/
def quality_score (missing_pct dup_pct : ℚ) (details : List OutlierDetail) : ℤ :=
  let s1 : ℚ := 100 - min 30 (missing_pct * (1/2))
  let s2 : ℚ := s1 - min 20 (dup_pct * 2)
  let s3 : ℚ :=
    if details ≠ [] then s2 - min 20 ((countHighOutlierCols details : ℚ) * 5) else s2
  max 0 (pythonRound s3)

/-- The score as the claim words it: deduct the three capped penalties
unconditionally, clamp to [0, 100], round to the nearest integer. -/
def quality_score_spec (missing_pct dup_pct : ℚ) (details : List OutlierDetail) : ℤ :=
  pythonRound (max 0 (min 100
    (100 - min 30 (missing_pct * (1/2)) - min 20 (dup_pct * 2)
      - min 20 ((countHighOutlierCols details : ℚ) * 5))))

-- ===========================================================================
-- MISSING-VALUE DETAILS TABLE  (lines 72–77 and 677–694)
-- ===========================================================================

/-- One record of `missing_df.to_dict('records')`. -/
structure MissingDetail where
  column : String
  missingCount : ℕ
  missingPct : ℚ
  dtype : DType
deriving DecidableEq, Repr

/-- The order of `missing_df.sort_values('Missing %', ascending=False)`:
descending missing percentage. -/
def byMissingPctDesc (a b : MissingDetail) : Prop := b.missingPct ≤ a.missingPct

instance : DecidableRel byMissingPctDesc :=
  fun a b => inferInstanceAs (Decidable (b.missingPct ≤ a.missingPct))

instance : IsTotal MissingDetail byMissingPctDesc :=
  ⟨fun a b => le_total b.missingPct a.missingPct⟩

instance : IsTrans MissingDetail byMissingPctDesc :=
  ⟨fun _ _ _ hab hbc => le_trans hbc hab⟩

/-- Lines 72–77: one record per column, sorted by descending missing
percentage. -/
def missingDetails (df : DataFrame) : List MissingDetail :=
  List.insertionSort byMissingPctDesc
    (df.cols.map (fun c => ⟨c.name, missingCount c, missingPct df c, c.dtype⟩))

/-- The rows of the "Missing Values by Column" HTML table (line 694:
`... for row in self.report_data['missing']['details'][:20]`); the template
renders exactly these rows and appends no overflow indicator. -/
def htmlMissingRows (df : DataFrame) : List MissingDetail :=
  (missingDetails df).take 20

-- ===========================================================================
-- PIPELINE  (`load_data`, `run_full_analysis`, `main`)
-- ===========================================================================

/-- The outcome of `pd.read_csv` inside `load_data` (lines 44–57): a parsed
table, or any exception (path missing or content unparsable), which
`load_data` catches and converts into returning `False`. -/
inductive LoadResult where
  | ok (df : DataFrame)
  | err

/-- The analyzer outputs plus the HTML output path assembled by
`run_full_analysis` when loading succeeds. -/
structure FullReport where
  df : DataFrame
  missing_details : List MissingDetail
  overall_missing_pct : ℚ
  outlier_details : List OutlierDetail
  exact_dups : ℕ
  key_col_dups : List (String × ℕ)
  warnings : List TypeWarning
  htmlPath : String

/-- Source `run_full_analysis` (lines 990–1015): when `load_data` fails it returns
`None` before any analyzer runs and before any HTML is written; otherwise
it runs the five analyzers and writes the report (to `output_path`, or to
`<stem>_quality_report.html` by default). -/
def run_full_analysis (toNumericOk toDatetimeOk : List String → Bool)
    (load : LoadResult) (stem : String) (outputPath : Option String) :
    Option FullReport :=
  match load with
  | .err => none
  | .ok df => some
    { df := df
      missing_details := missingDetails df
      overall_missing_pct := overallMissingPct df
      outlier_details := analyze_outliers df
      exact_dups := exact_duplicates df
      key_col_dups := key_column_duplicates df
      warnings := typeWarnings toNumericOk toDatetimeOk df
      htmlPath := outputPath.getD (stem ++ "_quality_report.html") }

/-- Source `main` (lines 1018–1032): with fewer than two entries in `sys.argv`
print usage and `sys.exit(1)`; otherwise run the pipeline and fall off the
end of `main`, so the process exits 0 whatever `run_full_analysis`
returned.  `fs` maps a path to the outcome of `pd.read_csv`; `stemOf`
is `Path(...).stem`.  The result is (process exit code, report written). -/
def mainEntry (toNumericOk toDatetimeOk : List String → Bool)
    (argv : List String) (fs : String → LoadResult)
    (stemOf : String → String) : ℕ × Option FullReport :=
  match argv with
  | [] => (1, none)
  | [_] => (1, none)
  | _ :: path :: rest =>
      (0, run_full_analysis toNumericOk toDatetimeOk (fs path) (stemOf path) rest.head?)

-- ===========================================================================
-- DASHBOARD PREDICTION BLOCK  (`app.py`, lines 71–90)
-- ===========================================================================

/-- The five slider values of tab 1. -/
structure SliderInput where
  daily_usage : ℚ
  sleep_hours : ℚ
  phone_checks : ℚ
  apps_used : ℚ
  social_time : ℚ

/-- Source `usage_sleep_ratio = daily_usage / sleep_hours` (line 78). -/
def usage_sleep_ratio (inp : SliderInput) : ℚ := inp.daily_usage / inp.sleep_hours

/-- Source `checks_app_ratio = phone_checks / apps_used` (line 79). -/
def checks_app_ratio (inp : SliderInput) : ℚ := inp.phone_checks / inp.apps_used

/-- The single-row feature frame handed to `model.predict_proba`
(lines 82–83), in the order of `feature_cols`. -/
def inputRow (inp : SliderInput) : List ℚ :=
  [inp.daily_usage, inp.sleep_hours, inp.phone_checks, inp.apps_used,
   inp.social_time, usage_sleep_ratio inp, checks_app_ratio inp]

/-- Source `threshold = 0.40` (line 89). -/
def riskThreshold : ℚ := 2/5

/-- Lines 86–90: the positive-class probability from the (opaque) trained
model and the thresholded classification `is_risk = prob >= threshold`. -/
def predictTab1 (model : List ℚ → ℚ) (inp : SliderInput) : ℚ × Bool :=
  (model (inputRow inp), decide (riskThreshold ≤ model (inputRow inp)))

-- ===========================================================================
-- CONCRETE TABLES USED IN WITNESSES AND COUNTEREXAMPLES
-- ===========================================================================

/-- A numeric column with one missing value. -/
def exampleAgeCol : ColumnData :=
  ⟨"age", DType.numeric, [Value.num 10, Value.missing, Value.num 30]⟩

/-- A small concrete table: a numeric and a text column, three rows. -/
def exampleDF : DataFrame :=
  ⟨[exampleAgeCol,
    ⟨"label", DType.obj, [Value.text ("a"), Value.text ("b"), Value.text ("a")]⟩]⟩

/-- A table whose first and third rows are identical (missing matching
missing in the second column). -/
def dupExampleDF : DataFrame :=
  ⟨[⟨"x", DType.numeric, [Value.num 1, Value.num 2, Value.num 1]⟩,
    ⟨"y", DType.obj, [Value.missing, Value.text ("b"), Value.missing]⟩]⟩

-- ===========================================================================
-- ROUNDING RANGE HELPER
-- ===========================================================================

theorem pythonRound_mem_Icc (a b : ℤ) (q : ℚ) (ha : (a : ℚ) ≤ q)
    (hb : q ≤ (b : ℚ)) : a ≤ pythonRound q ∧ pythonRound q ≤ b := by
  constructor
  · calc a = ⌊(a : ℚ)⌋ := (Int.floor_intCast a).symm
      _ ≤ ⌊q⌋ := Int.floor_le_floor ha
      _ ≤ pythonRound q := floor_le_pythonRound q
  · rcases eq_or_lt_of_le hb with heq | hlt
    · rw [heq, pythonRound_intCast]
    · have h1 : ⌊q⌋ < b := by
        have h2 : (⌊q⌋ : ℚ) < (b : ℚ) := lt_of_le_of_lt (Int.floor_le q) hlt
        exact_mod_cast h2
      have h3 := pythonRound_le_floor_add_one q
      omega

-- ===========================================================================
-- CLAIMS
-- ===========================================================================

/-- C3: the quality score equals 100 minus the three capped deductions,
clamped to [0,100] and rounded to the nearest integer, and the displayed
score is an integer in [0,100].  (`quality_score` is the source
computation, `quality_score_spec` the claim's wording; the deductions can
remove at most 70 points, so the clamp never engages.) -/
theorem quality_score_correct (missing_pct dup_pct : ℚ)
    (details : List OutlierDetail) (hm : 0 ≤ missing_pct) (hd : 0 ≤ dup_pct) :
    quality_score missing_pct dup_pct details
      = quality_score_spec missing_pct dup_pct details ∧
    0 ≤ quality_score missing_pct dup_pct details ∧
    quality_score missing_pct dup_pct details ≤ 100 := by
  have hd1a : (0:ℚ) ≤ min 30 (missing_pct * (1/2)) := le_min (by norm_num) (by positivity)
  have hd1b : min 30 (missing_pct * (1/2)) ≤ 30 := min_le_left _ _
  have hd2a : (0:ℚ) ≤ min 20 (dup_pct * 2) := le_min (by norm_num) (by positivity)
  have hd2b : min 20 (dup_pct * 2) ≤ 20 := min_le_left _ _
  have hd3a : (0:ℚ) ≤ min 20 ((countHighOutlierCols details : ℚ) * 5) :=
    le_min (by norm_num) (by positivity)
  have hd3b : min 20 ((countHighOutlierCols details : ℚ) * 5) ≤ 20 := min_le_left _ _
  have hs30 : (30:ℚ) ≤ 100 - min 30 (missing_pct * (1/2)) - min 20 (dup_pct * 2)
      - min 20 ((countHighOutlierCols details : ℚ) * 5) := by linarith
  have hs100 : 100 - min 30 (missing_pct * (1/2)) - min 20 (dup_pct * 2)
      - min 20 ((countHighOutlierCols details : ℚ) * 5) ≤ 100 := by linarith
  have hround := pythonRound_mem_Icc 30 100
    (100 - min 30 (missing_pct * (1/2)) - min 20 (dup_pct * 2)
      - min 20 ((countHighOutlierCols details : ℚ) * 5))
    (by push_cast; linarith) (by push_cast; linarith)
  have hcode : quality_score missing_pct dup_pct details
      = max 0 (pythonRound (100 - min 30 (missing_pct * (1/2)) - min 20 (dup_pct * 2)
          - min 20 ((countHighOutlierCols details : ℚ) * 5))) := by
    by_cases hdet : details = []
    · have hmin0 : min (20:ℚ) ((countHighOutlierCols details : ℚ) * 5) = 0 := by
        rw [hdet]
        simp [countHighOutlierCols]
      simp only [quality_score]
      rw [if_neg (by simp [hdet]), hmin0, sub_zero]
    · simp only [quality_score]
      rw [if_pos hdet]
  rw [hcode, max_eq_right (by linarith [hround.1])]
  have hspec : quality_score_spec missing_pct dup_pct details
      = pythonRound (100 - min 30 (missing_pct * (1/2)) - min 20 (dup_pct * 2)
          - min 20 ((countHighOutlierCols details : ℚ) * 5)) := by
    rw [quality_score_spec, min_eq_right hs100, max_eq_right (by linarith)]
  rw [hspec]
  exact ⟨rfl, by linarith [hround.1], hround.2⟩

/-- Witness for C3 at a concrete analyzer output. -/
theorem quality_score_correct_witness :
    (0:ℚ) ≤ 3 ∧ (0:ℚ) ≤ 2 ∧
    (quality_score 3 2 [] = quality_score_spec 3 2 [] ∧
      0 ≤ quality_score 3 2 [] ∧ quality_score 3 2 [] ≤ 100) :=
  ⟨by norm_num, by norm_num,
    quality_score_correct 3 2 [] (by norm_num) (by norm_num)⟩

/-- C4: each column's missing percentage equals missing count / row count
× 100 and lies in [0,100]; the overall missing percentage equals total
missing cells / (row count × column count) × 100. -/
theorem missing_pct_correct (df : DataFrame) (c : ColumnData)
    (hwf : df.Wf) (hc : c ∈ df.cols) (hrows : 0 < df.nrows) :
    missingPct df c = (missingCount c : ℚ) / (df.nrows : ℚ) * 100 ∧
    0 ≤ missingPct df c ∧ missingPct df c ≤ 100 ∧
    overallMissingPct df
      = (totalMissing df : ℚ) / ((df.nrows : ℚ) * (df.ncols : ℚ)) * 100 := by
  have hcnt : missingCount c ≤ df.nrows := by
    have h1 : missingCount c ≤ c.cells.length := List.countP_le_length _
    rw [hwf c hc] at h1
    exact h1
  have hnpos : (0:ℚ) < (df.nrows : ℚ) := by exact_mod_cast hrows
  refine ⟨rfl, ?_, ?_, ?_⟩
  · apply mul_nonneg _ (by norm_num)
    exact div_nonneg (by positivity) (le_of_lt hnpos)
  · rw [missingPct]
    have hdiv : (missingCount c : ℚ) / (df.nrows : ℚ) ≤ 1 := by
      rw [div_le_one hnpos]
      exact_mod_cast hcnt
    nlinarith
  · rw [overallMissingPct, totalCells]
    push_cast
    ring

/-- Witness for C4 on the concrete example table. -/
theorem missing_pct_correct_witness :
    exampleDF.Wf ∧ exampleAgeCol ∈ exampleDF.cols ∧ 0 < exampleDF.nrows ∧
    (0 ≤ missingPct exampleDF exampleAgeCol ∧
      missingPct exampleDF exampleAgeCol ≤ 100) := by
  have h := missing_pct_correct exampleDF exampleAgeCol
    (by decide) (by decide) (by decide)
  exact ⟨by decide, by decide, by decide, h.2.1, h.2.2.1⟩

/-- C5: the exact duplicate row count equals the sum over groups of
identical full-row tuples of (multiplicity − 1), missing comparing equal
to missing; in particular two identical rows among three yield a count
of 1 (`dupExampleDF` repeats its first row, missing matching missing). -/
theorem exact_duplicates_eq_sum_groups :
    (∀ df : DataFrame,
      exact_duplicates df
        = ∑ r ∈ df.rows.toFinset, (df.rows.countP (fun x => decide (x = r)) - 1)) ∧
    exact_duplicates dupExampleDF = 1 :=
  ⟨fun df => dupCount_eq_sum_groups df.rows, by decide⟩

/-- C10: the HTML missing-value table renders exactly the first 20 entries
of the details list, which is sorted by descending missing percentage; so
at most 20 columns appear (those with the highest missing percentages),
every further column is absent from the table, and the template appends no
overflow row after the rendered entries. -/
theorem html_missing_rows_take20 (df : DataFrame) :
    htmlMissingRows df = (missingDetails df).take 20 ∧
    (htmlMissingRows df).length = min 20 df.ncols ∧
    (missingDetails df).Sorted byMissingPctDesc ∧
    ∀ a ∈ htmlMissingRows df, ∀ b ∈ (missingDetails df).drop 20,
      b.missingPct ≤ a.missingPct := by
  refine ⟨rfl, ?_, List.sorted_insertionSort _ _, ?_⟩
  · rw [htmlMissingRows, List.length_take, missingDetails,
      List.length_insertionSort, List.length_map]
    rfl
  · intro a ha b hb
    rw [htmlMissingRows] at ha
    exact (List.sorted_insertionSort byMissingPctDesc _).rel_of_mem_take_of_mem_drop ha hb

/-- C9: for the first 5 candidate key columns, the per-key-column duplicate
map holds an entry exactly when the column-level duplicate count — the
number of values minus the number of distinct values, missing counting as
one value — is positive, and the entry is that count; columns with zero
duplicates are omitted. -/
theorem key_column_duplicates_spec (df : DataFrame) (name : String) (k : ℕ) :
    (name, k) ∈ key_column_duplicates df ↔
      name ∈ (potential_key_cols df).take 5 ∧
      k = (df.cellsOf name).length - (df.cellsOf name).toFinset.card ∧
      0 < k := by
  unfold key_column_duplicates
  rw [List.mem_filterMap]
  constructor
  · rintro ⟨n, hn, hsome⟩
    split at hsome
    · rw [Option.some_inj, Prod.mk.injEq] at hsome
      obtain ⟨rfl, rfl⟩ := hsome
      refine ⟨hn, dupCount_eq_length_sub_card _, ?_⟩
      rw [dupCount_eq_length_sub_card] at *
      assumption
    · exact absurd hsome (by simp)
  · rintro ⟨hmem, hk, hkpos⟩
    refine ⟨name, hmem, ?_⟩
    have hdc : dupCount (df.cellsOf name) = k := by
      rw [dupCount_eq_length_sub_card, hk]
    rw [if_pos (by rw [hdc]; exact hkpos), hdc]

/-- C8: the dashboard derives `usage_to_sleep_ratio = daily_usage /
sleep_hours` and `checks_per_app = phone_checks / apps_used` (the products
below pin the quotients down when the denominators are nonzero), and
classifies high risk exactly when the model probability is at least the
0.40 threshold; on the concrete sliders (10, 4, 120, 3, 6) the ratios are
2.5 and 40.0. -/
theorem dashboard_prediction_spec (inp : SliderInput) (model : List ℚ → ℚ)
    (hs : inp.sleep_hours ≠ 0) (ha : inp.apps_used ≠ 0) :
    usage_sleep_ratio inp * inp.sleep_hours = inp.daily_usage ∧
    checks_app_ratio inp * inp.apps_used = inp.phone_checks ∧
    ((predictTab1 model inp).2 = true ↔ riskThreshold ≤ (predictTab1 model inp).1) ∧
    usage_sleep_ratio ⟨10, 4, 120, 3, 6⟩ = 5/2 ∧
    checks_app_ratio ⟨10, 4, 120, 3, 6⟩ = 40 := by
  refine ⟨div_mul_cancel₀ _ hs, div_mul_cancel₀ _ ha, ?_, ?_, ?_⟩
  · simp [predictTab1]
  · norm_num [usage_sleep_ratio]
  · norm_num [checks_app_ratio]

/-- Witness for C8 at the boundary scenario of the spec. -/
theorem dashboard_prediction_spec_witness :
    (⟨10, 4, 120, 3, 6⟩ : SliderInput).sleep_hours ≠ 0 ∧
    (⟨10, 4, 120, 3, 6⟩ : SliderInput).apps_used ≠ 0 ∧
    usage_sleep_ratio ⟨10, 4, 120, 3, 6⟩ = 5/2 ∧
    checks_app_ratio ⟨10, 4, 120, 3, 6⟩ = 40 := by
  have h := dashboard_prediction_spec ⟨10, 4, 120, 3, 6⟩ (fun _ => 1/2)
    (by norm_num) (by norm_num)
  exact ⟨by norm_num, by norm_num, h.2.2.2.1, h.2.2.2.2⟩

/-- A filesystem on which `pd.read_csv` raises for every path. -/
def fsAllErr : String → LoadResult := fun _ => LoadResult.err

/-- C2 counterexample: on an unloadable input no analyzer runs and no
report is written, but `main` falls through normally, so the process exit
code is 0 — not non-zero as the claim states. -/
theorem main_exit_zero_on_load_failure :
    mainEntry numericProbe datetimeProbe
      ["data_quality_report.py", "nofile.csv"] fsAllErr id = (0, none) := rfl

/-- C2 (amended): when the input path is missing or unparsable the pipeline
aborts — `run_full_analysis` returns `None` before any analyzer runs and no
HTML report is produced — but the process terminates with exit code 0 (a
non-zero exit happens only for a missing CLI argument). -/
theorem load_failure_aborts (toN toD : List String → Bool)
    (prog path : String) (rest : List String) (fs : String → LoadResult)
    (stemOf : String → String) (hf : fs path = LoadResult.err) :
    mainEntry toN toD (prog :: path :: rest) fs stemOf = (0, none) := by
  simp [mainEntry, run_full_analysis, hf]

/-- Witness for the amended C2 on a concrete failing path. -/
theorem load_failure_aborts_witness :
    fsAllErr ("missing.csv") = LoadResult.err ∧
    mainEntry numericProbe datetimeProbe
      ["prog", "missing.csv"] fsAllErr id = (0, none) :=
  ⟨rfl, load_failure_aborts numericProbe datetimeProbe ("prog") ("missing.csv")
    [] fsAllErr id rfl⟩

/-- C6: for the non-missing data of a numeric column the computed fences
satisfy lower bound ≤ Q1 ≤ Q3 ≤ upper bound, with `lower = Q1 − 1.5·IQR`
and `upper = Q3 + 1.5·IQR`, and both inequalities collapse to equality
exactly when IQR = 0. -/
theorem iqr_bounds_correct (data : List ℚ) (hne : data ≠ []) :
    lowerBoundOf data ≤ q1Of data ∧ q1Of data ≤ q3Of data ∧
    q3Of data ≤ upperBoundOf data ∧
    ((lowerBoundOf data = q1Of data ∧ upperBoundOf data = q3Of data) ↔
      iqrOf data = 0) := by
  have h13 : q1Of data ≤ q3Of data := by
    unfold q1Of q3Of
    exact quantile_mono data hne (by norm_num) (by norm_num) (by norm_num)
  have hiqr0 : 0 ≤ iqrOf data := by unfold iqrOf; linarith
  refine ⟨?_, h13, ?_, ?_⟩
  · unfold lowerBoundOf; linarith
  · unfold upperBoundOf; linarith
  · constructor
    · rintro ⟨h1, _⟩
      unfold lowerBoundOf at h1
      linarith
    · intro h0
      unfold lowerBoundOf upperBoundOf
      rw [h0]
      constructor <;> ring

/-- Witness for C6 on a concrete nonempty column. -/
theorem iqr_bounds_correct_witness :
    ([1, 2, 4] : List ℚ) ≠ [] ∧
    (lowerBoundOf [1, 2, 4] ≤ q1Of [1, 2, 4] ∧ q1Of [1, 2, 4] ≤ q3Of [1, 2, 4]) := by
  have h := iqr_bounds_correct [1, 2, 4] (by decide)
  exact ⟨by decide, h.1, h.2.1⟩

/-- The "Age" scenario column: one value 200, the others within [10, 80]. -/
def ageScenarioData : List ℚ := [10, 25, 40, 80, 200]

/-- C7: the outlier analyzer flags negative values exactly when the
column's minimum is below 0 and its lower-cased name is one of {age,
price, quantity, count, amount}, and flags the age column (name
lower-casing to "age") exactly when its maximum exceeds 120; on the "Age"
scenario column the analyzer emits the `Age > 120 (max: 200)` flag and
counts the 200 row as the single IQR outlier. -/
theorem impossible_flags_correct (name : String) (data : List ℚ) :
    (ImpossibleFlag.negativeValues (listMin data) ∈ impossibleFlags name data ↔
      listMin data < 0 ∧ lowerStr name ∈ negativeNameList) ∧
    (ImpossibleFlag.ageOver120 (listMax data) ∈ impossibleFlags name data ↔
      lowerStr name = "age" ∧ 120 < listMax data) ∧
    (analyzeColumnOutliers ("Age") (ageScenarioData.map Value.num)).map
        (fun d => (d.outlier_count, d.impossible_values))
      = some (1, [ImpossibleFlag.ageOver120 200]) ∧
    outliersOf ageScenarioData = [200] := by
  refine ⟨?_, ?_, by with_unfolding_all rfl, by with_unfolding_all rfl⟩
  · unfold impossibleFlags
    split_ifs with h1 h2 <;> simp_all
  · unfold impossibleFlags
    split_ifs with h1 h2 <;> simp_all

/-- The table of the C1 counterexample: one text column whose values parse
both as numbers and as compact ISO dates (as with `pd.to_numeric` and
`pd.to_datetime` on e.g. `"20230101"`). -/
def dualParseDF : DataFrame :=
  ⟨[⟨"order_date", DType.obj,
     [Value.text ("20230101"), Value.text ("20231215")]⟩]⟩

/-- C1 counterexample: the source applies both probes unconditionally (two
independent `try` blocks), so a column whose prefix parses as numeric and
as datetime receives both warnings — refuting "at most one of the warnings
is emitted per column". -/
theorem both_type_warnings_fire :
    TypeWarning.appearsNumeric ("order_date")
        ∈ typeWarnings numericProbe datetimeProbe dualParseDF ∧
    TypeWarning.appearsDatetime ("order_date")
        ∈ typeWarnings numericProbe datetimeProbe dualParseDF := by
  decide

/-- C1 (amended): the type analyzer applies the two probes independently
to the first 100 non-missing values of each text column — the numeric
warning is emitted iff the numeric probe succeeds and the datetime warning
iff the datetime probe succeeds (the datetime probe is not conditioned on
the numeric probe's failure), so a column may receive zero, one, or both
warnings. -/
theorem type_warnings_independent (toN toD : List String → Bool)
    (df : DataFrame) (c : ColumnData) (hc : c ∈ df.cols)
    (hobj : c.dtype = DType.obj)
    (hnodup : (df.cols.map (fun x => x.name)).Nodup) :
    (TypeWarning.appearsNumeric c.name ∈ typeWarnings toN toD df ↔
      toN (textPrefix100 c.cells) = true) ∧
    (TypeWarning.appearsDatetime c.name ∈ typeWarnings toN toD df ↔
      toD (textPrefix100 c.cells) = true) := by
  have hinj : ∀ x ∈ df.cols, ∀ y ∈ df.cols, x.name = y.name → x = y :=
    List.inj_on_of_nodup_map hnodup
  constructor
  · constructor
    · intro hmem
      rw [typeWarnings, List.mem_flatten] at hmem
      obtain ⟨l, hl, hwl⟩ := hmem
      rw [List.mem_map] at hl
      obtain ⟨x, hx, rfl⟩ := hl
      by_cases hxd : x.dtype = DType.obj
      · rw [if_pos hxd] at hwl
        rcases List.mem_append.mp hwl with h | h
        · by_cases hp : toN (textPrefix100 x.cells) = true
          · rw [if_pos hp] at h
            simp only [List.mem_singleton, TypeWarning.appearsNumeric.injEq] at h
            have hxc : x = c := hinj x hx c hc h.symm
            rw [← hxc]
            exact hp
          · rw [if_neg hp] at h
            exact absurd h (List.not_mem_nil _)
        · by_cases hp : toD (textPrefix100 x.cells) = true
          · rw [if_pos hp] at h
            simp at h
          · rw [if_neg hp] at h
            exact absurd h (List.not_mem_nil _)
      · rw [if_neg hxd] at hwl
        exact absurd hwl (List.not_mem_nil _)
    · intro hp
      rw [typeWarnings, List.mem_flatten]
      refine ⟨_, List.mem_map.mpr ⟨c, hc, rfl⟩, ?_⟩
      rw [if_pos hobj, if_pos hp]
      simp
  · constructor
    · intro hmem
      rw [typeWarnings, List.mem_flatten] at hmem
      obtain ⟨l, hl, hwl⟩ := hmem
      rw [List.mem_map] at hl
      obtain ⟨x, hx, rfl⟩ := hl
      by_cases hxd : x.dtype = DType.obj
      · rw [if_pos hxd] at hwl
        rcases List.mem_append.mp hwl with h | h
        · by_cases hp : toN (textPrefix100 x.cells) = true
          · rw [if_pos hp] at h
            simp at h
          · rw [if_neg hp] at h
            exact absurd h (List.not_mem_nil _)
        · by_cases hp : toD (textPrefix100 x.cells) = true
          · rw [if_pos hp] at h
            simp only [List.mem_singleton, TypeWarning.appearsDatetime.injEq] at h
            have hxc : x = c := hinj x hx c hc h.symm
            rw [← hxc]
            exact hp
          · rw [if_neg hp] at h
            exact absurd h (List.not_mem_nil _)
      · rw [if_neg hxd] at hwl
        exact absurd hwl (List.not_mem_nil _)
    · intro hp
      rw [typeWarnings, List.mem_flatten]
      refine ⟨_, List.mem_map.mpr ⟨c, hc, rfl⟩, ?_⟩
      rw [if_pos hobj]
      refine List.mem_append.mpr (Or.inr ?_)
      rw [if_pos hp]
      simp

/-- Witness for the amended C1 on the dual-parsing table. -/
theorem type_warnings_independent_witness :
    ((⟨"order_date", DType.obj,
        [Value.text ("20230101"), Value.text ("20231215")]⟩ : ColumnData)
      ∈ dualParseDF.cols) ∧
    (TypeWarning.appearsNumeric ("order_date")
        ∈ typeWarnings numericProbe datetimeProbe dualParseDF ↔
      numericProbe (textPrefix100
        [Value.text ("20230101"), Value.text ("20231215")]) = true) := by
  have h := type_warnings_independent numericProbe datetimeProbe dualParseDF
    ⟨"order_date", DType.obj, [Value.text ("20230101"), Value.text ("20231215")]⟩
    (by decide) rfl (by decide)
  exact ⟨by decide, h.1⟩

end DQR
